import Mathlib

/-!
# Response callbacks of the k6 HTTP module

A shallow embedding of `js/modules/k6/http/response_callback.go`:
the status matcher `expectedStatuses`, its `match` method, the engine default
matcher, and the script-facing constructor `ExpectedStatuses` together with the
part of the goja value API that the constructor calls.

Go's `int` is modelled by `Int`: `match` only compares, so no arithmetic can
overflow.
-/

namespace K6

/-! ## The matcher -/

/-- The Go struct `expectedStatuses`: `minmax [][2]int` and `exact []int`. -/
structure expectedStatuses where
  minmax : List (Int × Int)
  exact : List Int
  deriving DecidableEq, Repr

/-- First loop of `match`: `for _, v := range e.exact { if v == status { return true } }`.
The result `true` stands for the early `return true`, `false` for falling out of the loop. -/
def matchExactLoop : List Int → Int → Bool
  | [], _ => false
  | v :: rest, status => if v = status then true else matchExactLoop rest status

/-- Second loop of `match`:
`for _, v := range e.minmax { if v[0] <= status && status <= v[1] { return true } }`. -/
def matchMinmaxLoop : List (Int × Int) → Int → Bool
  | [], _ => false
  | v :: rest, status =>
    if v.1 ≤ status ∧ status ≤ v.2 then true else matchMinmaxLoop rest status

/-- The method `func (e expectedStatuses) match(status int) bool`: the exact loop, then the
range loop, then `return false`. -/
def expectedStatuses.«match» (e : expectedStatuses) (status : Int) : Bool :=
  if matchExactLoop e.exact status then true
  else if matchMinmaxLoop e.minmax status then true
  else false

/-- The package variable `defaultExpectedStatuses`: `minmax: [][2]int{{200, 399}}`, `exact` left
at its zero value. -/
def defaultExpectedStatuses : expectedStatuses :=
  { minmax := [(200, 399)], exact := [] }

/-- The function `DefaultHTTPResponseCallback`, which returns
`defaultExpectedStatuses.match`. -/
def DefaultHTTPResponseCallback : Int → Bool :=
  defaultExpectedStatuses.«match»

/-! ## The goja values the constructor inspects

`ExpectedStatuses` receives its arguments as `goja.Value` and uses four operations of that
library: `Value.ToObject`, `Object.ClassName`, `Object.Get` and `ToInteger`. goja is an external
dependency; the definitions below follow its behaviour (and ECMAScript's `ToObject`) on the
values a script can pass: `undefined`, `null`, booleans, numbers, strings and plain data
objects. Arrays, functions, symbols, wrapper objects created with `new`, accessors and proxies
are outside the model, as is a script that adds `min` or `max` to a built-in prototype. -/

/-- A JavaScript value. Numbers are either goja's `valueInt` (`int`) or its `valueFloat`: a finite
double `mant * 2^exp` (`float`), `NaN` (`nan`) or an infinity (`inf`, with its sign). -/
inductive Value where
  | undefined
  | null
  | bool (b : Bool)
  | int (i : Int)
  | float (mant : Int) (exp : Int)
  | nan
  | inf (negative : Bool)
  | string (s : String)
  | object (props : List (String × Value))

/-- What a panic raised inside `ExpectedStatuses` carries: `common.Throw(rt, err)` panics with a
`GoError` wrapping `err` (here identified with `err`'s message), and goja itself panics with a
JavaScript `TypeError`. -/
inductive Exception where
  | goError (msg : String)
  | typeError (msg : String)
  deriving DecidableEq, Repr

/-- The `*goja.Object` that `ToObject` returns: its class name, its properties, and for the
wrapper of a primitive the wrapped value. (The own properties of a `String` wrapper, `length`
and the indices, are left out; no lookup of `min` or `max` sees them.) -/
structure Object where
  className : String
  props : List (String × Value)
  primitive : Option Value

/-- The method `Value.ToObject(rt)`. On `undefined` and `null` goja panics with a `TypeError`
(as ECMAScript's `ToObject` does); a primitive is wrapped in an object of its class; an object
is returned as it is. The `Option` stands for the `*Object` pointer, which the caller compares
with `nil`. -/
def Value.ToObject : Value → Except Exception (Option Object)
  | .undefined => .error (.typeError "Cannot convert undefined or null to object")
  | .null => .error (.typeError "Cannot convert undefined or null to object")
  | .bool b => .ok (some ⟨"Boolean", [], some (.bool b)⟩)
  | .int i => .ok (some ⟨"Number", [], some (.int i)⟩)
  | .float m e => .ok (some ⟨"Number", [], some (.float m e)⟩)
  | .nan => .ok (some ⟨"Number", [], some .nan⟩)
  | .inf n => .ok (some ⟨"Number", [], some (.inf n)⟩)
  | .string s => .ok (some ⟨"String", [], some (.string s)⟩)
  | .object props => .ok (some ⟨"Object", props, none⟩)

/-- The method `Object.ClassName()`. -/
def Object.ClassName (o : Object) : String := o.className

/-- The method `Object.Get(name)`: the value of the property, or `nil` (`none`) when the object
has no such property. A property whose value is `undefined` or `null` is present. -/
def Object.Get (o : Object) (name : String) : Option Value := o.props.lookup name

/-- The method `Value.ToInteger()` followed by Go's `int(...)`, on numbers: a `valueInt` is
returned as it is, `NaN` gives 0, the infinities give the largest and smallest `int64`, and a
finite double is truncated towards zero (for a double beyond the `int64` range Go leaves the
conversion to the implementation; the model keeps the truncated value). `ExpectedStatuses`
converts only values of class `Number`; on the other values the conversion would go through
JavaScript's `ToNumber`, of which only the cases with a fixed result are given
(`undefined` is `NaN`, hence 0; `null` is 0; `false` and `true` are 0 and 1), strings and
objects being left at 0. -/
def Value.ToInteger : Value → Int
  | .int i => i
  | .float m e => if 0 ≤ e then m * 2 ^ e.toNat else Int.tdiv m (2 ^ (-e).toNat)
  | .nan => 0
  | .inf negative => if negative then -(2 ^ 63) else 2 ^ 63 - 1
  | .undefined => 0
  | .null => 0
  | .bool b => if b then 1 else 0
  | .string _ => 0
  | .object _ => 0

/-- The method `Object.ToInteger()`: the conversion of the wrapped primitive; a plain object
converts to `NaN`, hence 0. -/
def Object.ToInteger (o : Object) : Int :=
  match o.primitive with
  | some v => v.ToInteger
  | none => 0

/-! ## The constructor `ExpectedStatuses` -/

/-- The error of line 76, thrown when `arg.ToObject(rt)` is `nil`:
`fmt.Errorf("argument number %d to expectedStatuses was neither an integer nor a an object like {min:100, max:329}", i+1)`;
`n` is the value `i+1` that `%d` prints. -/
def errNilObject (n : Nat) : String :=
  "argument number " ++ toString n ++
    " to expectedStatuses was neither an integer nor a an object like \x7bmin:100, max:329\x7d"

/-- The error of line 86, thrown when `min` or `max` is `nil`; the format string in the source is
a second copy of the one of line 76. -/
def errMissingMinMax (n : Nat) : String :=
  "argument number " ++ toString n ++
    " to expectedStatuses was neither an integer nor a an object like \x7bmin:100, max:329\x7d"

/-- The error of line 89:
`fmt.Errorf("both min and max need to be number for argument number %d", i+1)`. -/
def errMinMaxNotNumber (n : Nat) : String :=
  "both min and max need to be number for argument number " ++ toString n

/-- The function `checkNumber(a, rt)`: `o := a.ToObject(rt); return o != nil && o.ClassName() == "Number"`.
A panic of `ToObject` passes through. -/
def checkNumber (a : Value) : Except Exception Bool :=
  match a.ToObject with
  | .error ex => .error ex
  | .ok none => .ok false
  | .ok (some o) => .ok (o.ClassName == "Number")

/-- The body of the loop `for i, arg := range args` in `ExpectedStatuses`, for the index `i`, the
argument `arg` and the `result` accumulated so far: the new `result`, or the panic. The
condition `checkNumber(min, rt) && checkNumber(max, rt)` evaluates its second call only when the
first returns `true`. -/
def expectedStatusesStep (i : Nat) (arg : Value) (result : expectedStatuses) :
    Except Exception expectedStatuses :=
  match arg.ToObject with
  | .error ex => .error ex
  | .ok none => .error (.goError (errNilObject (i + 1)))
  | .ok (some o) =>
    if o.ClassName = "Number" then
      .ok { result with exact := result.exact ++ [o.ToInteger] }
    else
      match o.Get "min", o.Get "max" with
      | some min, some max =>
        match checkNumber min with
        | .error ex => .error ex
        | .ok false => .error (.goError (errMinMaxNotNumber (i + 1)))
        | .ok true =>
          match checkNumber max with
          | .error ex => .error ex
          | .ok false => .error (.goError (errMinMaxNotNumber (i + 1)))
          | .ok true =>
            .ok { result with minmax := result.minmax ++ [(min.ToInteger, max.ToInteger)] }
      | _, _ => .error (.goError (errMissingMinMax (i + 1)))

/-- The loop `for i, arg := range args` from index `i` on: it stops at the first panic. -/
def expectedStatusesLoop : Nat → List Value → expectedStatuses → Except Exception expectedStatuses
  | _, [], result => .ok result
  | i, arg :: rest, result =>
    match expectedStatusesStep i arg result with
    | .error ex => .error ex
    | .ok result' => expectedStatusesLoop (i + 1) rest result'

/-- The method `(*HTTP).ExpectedStatuses(ctx, args...)`: with no argument it throws
`errors.New("no arguments")`; otherwise it runs the loop from `var result expectedStatuses`
(both slices `nil`) and returns `&result`. -/
def ExpectedStatuses (args : List Value) : Except Exception expectedStatuses :=
  if args.length = 0 then .error (.goError "no arguments")
  else expectedStatusesLoop 0 args { minmax := [], exact := [] }

/-! ## Shapes of arguments -/

/-- A value of JavaScript type number (of class `Number` once converted to an object). -/
def Value.isNumber : Value → Bool
  | .int _ => true
  | .float _ _ => true
  | .nan => true
  | .inf _ => true
  | _ => false

/-- An argument that the loop body lets through: a number, or an object whose `min` and `max`
are both present and both numbers. Every integer and every object `{min, max}` with integer
fields is of this kind. -/
def Value.accepted : Value → Bool
  | .object props =>
    match props.lookup "min", props.lookup "max" with
    | some min, some max => min.isNumber && max.isNumber
    | _, _ => false
  | v => v.isNumber

/-- The values `undefined` and `null`, which `ToObject` refuses to convert. -/
def Value.isNullish : Value → Bool
  | .undefined => true
  | .null => true
  | _ => false

/-- A property named `min` or `max`, the only two that `ExpectedStatuses` reads. -/
def isMinMaxField (e : String × Value) : Bool := e.1 == "min" || e.1 == "max"

/-- An argument stripped of its extra fields: an object keeps only its properties named `min`
or `max` (in their order), any other value is left as it is. Two arguments with the same
stripped form differ only in fields other than `min` and `max`. -/
def Value.withoutExtraFields : Value → Value
  | .object props => .object (props.filter isMinMaxField)
  | v => v

/-- A valid argument in the sense of the specification: an integer, or an object whose `min` and
`max` are both integers. -/
def Value.isValidArg : Value → Bool
  | .int _ => true
  | .object props =>
    match props.lookup "min", props.lookup "max" with
    | some (.int _), some (.int _) => true
    | _, _ => false
  | _ => false

/-- The integer arguments of a call, in argument order. -/
def integerArgs : List Value → List Int
  | [] => []
  | .int i :: rest => i :: integerArgs rest
  | _ :: rest => integerArgs rest

/-- The pairs `(min, max)` of the range-object arguments of a call, in argument order. -/
def rangeArgs : List Value → List (Int × Int)
  | [] => []
  | .object props :: rest =>
    match props.lookup "min", props.lookup "max" with
    | some (.int a), some (.int b) => (a, b) :: rangeArgs rest
    | _, _ => rangeArgs rest
  | _ :: rest => rangeArgs rest

/-- The exact values `a, a+1, ..., b` that stand for the range `(a, b)`; none when `a > b`. -/
def rangeValues (a b : Int) : List Int :=
  (List.range (b + 1 - a).toNat).map (fun (k : Nat) => a + (k : Int))

/-- The exact list that stands for a matcher: its exact values, followed by the values of each of
its ranges. -/
def exactOnly (e : expectedStatuses) : List Int :=
  e.exact ++ e.minmax.flatMap (fun r => rangeValues r.1 r.2)

/-! ## The per-VU state and `SetResponseCallback` -/

/-- The struct `lib.State`, declared in package `lib`. `SetResponseCallback` touches its field
`HTTPResponseCallback func(int) bool` (`none` is the `nil` function); all its other fields are
gathered in `other`, of an arbitrary type. -/
structure State (σ : Type) where
  HTTPResponseCallback : Option (Int → Bool)
  other : σ

/-- The method `(h HTTP) SetResponseCallback(ctx, es)`, on the state that `lib.GetState(ctx)`
returns: with `es != nil` the field is set to `es.match`, otherwise to `nil`. -/
def SetResponseCallback {σ : Type} (es : Option expectedStatuses) (state : State σ) : State σ :=
  match es with
  | some es => { state with HTTPResponseCallback := some es.«match» }
  | none => { state with HTTPResponseCallback := none }

/-! ## Resolution and tagging

The code that picks the callback of a request and that tags its samples belongs to the request
pipeline of the repository, of which only the test `TestResponseCallbackInAction` is at hand.
The definitions of this section follow sections 3, 4.3 and 4.4 of the specification. -/

/-- Modelled from the spec: the VU-wide callback state of section 3 (the request pipeline that
reads it is missing): unset (the engine default applies), disabled, or holding a matcher. -/
inductive VUCallbackState where
  | unset
  | disabled
  | matcher (m : expectedStatuses)

/-- Modelled from the spec: the per-request option `responseCallback` of sections 4.3 and 6 (the
parsing of request options is missing): absent, the explicit disable value, or a matcher. -/
inductive PerRequestOverride where
  | absent
  | disabled
  | matcher (m : expectedStatuses)

/-- Modelled from the spec: the classification mode resolved for one request (section 3,
"Request classification outcome"; the resolver is missing): unclassified, or bound to a
matcher. -/
inductive Mode where
  | unclassified
  | classified (m : expectedStatuses)

/-- Modelled from the spec: the `CallbackResolver` of section 4.3 (the request pipeline is
missing). It returns the mode of the request and the VU state after it. A per-request override
that is the disable value gives `Unclassified`, one that is a matcher gives that matcher; with no
override the VU state decides: disabled gives `Unclassified`, a matcher is used, unset gives the
engine default matcher. The VU state is not altered. -/
def CallbackResolver (vu : VUCallbackState) (req : PerRequestOverride) :
    Mode × VUCallbackState :=
  match req with
  | .disabled => (.unclassified, vu)
  | .matcher m => (.classified m, vu)
  | .absent =>
    match vu with
    | .disabled => (.unclassified, vu)
    | .matcher m => (.classified m, vu)
    | .unset => (.classified defaultExpectedStatuses, vu)

/-- The per-request metrics the test `TestResponseCallbackInAction` lists (`metrics.HTTPReqs`,
`metrics.HTTPReqFailed`, ...). -/
inductive Metric where
  | HTTPReqs
  | HTTPReqFailed
  | HTTPReqBlocked
  | HTTPReqConnecting
  | HTTPReqDuration
  | HTTPReqReceiving
  | HTTPReqSending
  | HTTPReqWaiting
  | HTTPReqTLSHandshaking
  deriving DecidableEq, Repr

/-- The list `allHTTPMetrics` of the test. -/
def allHTTPMetrics : List Metric :=
  [.HTTPReqs, .HTTPReqFailed, .HTTPReqBlocked, .HTTPReqConnecting, .HTTPReqDuration,
    .HTTPReqReceiving, .HTTPReqSending, .HTTPReqWaiting, .HTTPReqTLSHandshaking]

/-- The list `HTTPMetricsWithoutFailed` of the test. -/
def HTTPMetricsWithoutFailed : List Metric :=
  [.HTTPReqs, .HTTPReqBlocked, .HTTPReqConnecting, .HTTPReqDuration, .HTTPReqReceiving,
    .HTTPReqWaiting, .HTTPReqSending, .HTTPReqTLSHandshaking]

/-- Modelled from the spec: what the `OutcomeTagger` of section 4.4 decides for one request (the
tagging code is missing): the value of the tag `passed` when the tag is attached, the value of
the request-failed metric when it is emitted, and the metrics emitted. -/
structure Outcome where
  passed : Option String
  failed : Option Nat
  metrics : List Metric
  deriving DecidableEq, Repr

/-- Modelled from the spec: the `OutcomeTagger` of section 4.4 (the tagging code of the request
pipeline is missing). Unclassified: no tag `passed`, no request-failed metric, every other metric
emitted. With a matcher: `passed = matcher.match(status)`, the tag `passed` is "true" or "false",
and the request-failed metric is emitted with value 1 when not passed and 0 when passed. -/
def OutcomeTagger (mode : Mode) (status : Int) : Outcome :=
  match mode with
  | .unclassified => { passed := none, failed := none, metrics := HTTPMetricsWithoutFailed }
  | .classified m =>
    { passed := some (if m.«match» status then "true" else "false"),
      failed := some (if m.«match» status then 0 else 1),
      metrics := allHTTPMetrics }

/-! ## Lemmas on the two loops -/

theorem matchExactLoop_eq_true (E : List Int) (s : Int) :
    matchExactLoop E s = true ↔ s ∈ E := by
  induction E with
  | nil => simp [matchExactLoop]
  | cons v rest ih =>
    by_cases h : v = s
    · simp [matchExactLoop, h]
    · have h' : ¬ s = v := fun e => h e.symm
      simp [matchExactLoop, h, h', ih]

theorem matchMinmaxLoop_eq_true (R : List (Int × Int)) (s : Int) :
    matchMinmaxLoop R s = true ↔ ∃ r ∈ R, r.1 ≤ s ∧ s ≤ r.2 := by
  induction R with
  | nil => simp [matchMinmaxLoop]
  | cons v rest ih =>
    by_cases h : v.1 ≤ s ∧ s ≤ v.2
    · simp [matchMinmaxLoop, h]
    · simp only [matchMinmaxLoop, h, if_false, ih, List.mem_cons]
      constructor
      · rintro ⟨r, hr, hs⟩
        exact ⟨r, Or.inr hr, hs⟩
      · rintro ⟨r, hr | hr, hs⟩
        · subst hr
          exact absurd hs h
        · exact ⟨r, hr, hs⟩

theorem match_eq_true (e : expectedStatuses) (s : Int) :
    e.«match» s = true ↔ (s ∈ e.exact ∨ ∃ r ∈ e.minmax, r.1 ≤ s ∧ s ≤ r.2) := by
  rw [← matchExactLoop_eq_true, ← matchMinmaxLoop_eq_true]
  unfold expectedStatuses.«match»
  cases matchExactLoop e.exact s <;> cases matchMinmaxLoop e.minmax s <;> simp

/-! ## Lemmas on the messages -/

theorem errNilObject_length (n : Nat) : 16 ≤ (errNilObject n).length := by
  simp only [errNilObject, String.length_append]
  have h : "argument number ".length = 16 := by decide
  omega

theorem errMissingMinMax_eq (n : Nat) : errMissingMinMax n = errNilObject n := rfl

theorem errMinMaxNotNumber_length (n : Nat) : 55 ≤ (errMinMaxNotNumber n).length := by
  simp only [errMinMaxNotNumber, String.length_append]
  have h : "both min and max need to be number for argument number ".length = 55 := by decide
  omega

theorem errNilObject_ne_noArguments (n : Nat) : errNilObject n ≠ "no arguments" := by
  intro h
  have h1 := errNilObject_length n
  rw [h] at h1
  have h2 : "no arguments".length = 12 := by decide
  omega

theorem errMinMaxNotNumber_ne_noArguments (n : Nat) :
    errMinMaxNotNumber n ≠ "no arguments" := by
  intro h
  have h1 := errMinMaxNotNumber_length n
  rw [h] at h1
  have h2 : "no arguments".length = 12 := by decide
  omega

theorem errNilObject_ne_errMinMaxNotNumber (n k : Nat) :
    errNilObject n ≠ errMinMaxNotNumber k := by
  intro h
  have h1 := congrArg (fun t : String => t.data.head?) h
  simp [errNilObject, errMinMaxNotNumber, String.data_append] at h1

/-! ## Lemmas on the loop body -/

theorem checkNumber_of_isNumber (a : Value) (h : a.isNumber = true) :
    checkNumber a = .ok true := by
  cases a <;> simp [Value.isNumber] at h <;> rfl

theorem expectedStatusesStep_of_isNumber (i : Nat) (v : Value) (r : expectedStatuses)
    (h : v.isNumber = true) :
    expectedStatusesStep i v r = .ok { r with exact := r.exact ++ [v.ToInteger] } := by
  cases v <;> simp [Value.isNumber] at h <;> rfl

theorem expectedStatusesStep_object_numbers (i : Nat) (props : List (String × Value))
    (r : expectedStatuses) (min max : Value)
    (hmin : props.lookup "min" = some min) (hmax : props.lookup "max" = some max)
    (h1 : min.isNumber = true) (h2 : max.isNumber = true) :
    expectedStatusesStep i (.object props) r
      = .ok { r with minmax := r.minmax ++ [(min.ToInteger, max.ToInteger)] } := by
  simp [expectedStatusesStep, Value.ToObject, Object.ClassName, Object.Get, hmin, hmax,
    checkNumber_of_isNumber min h1, checkNumber_of_isNumber max h2]

theorem expectedStatusesStep_object_missing (i : Nat) (props : List (String × Value))
    (r : expectedStatuses)
    (h : props.lookup "min" = none ∨ props.lookup "max" = none) :
    expectedStatusesStep i (.object props) r
      = .error (.goError (errMissingMinMax (i + 1))) := by
  rcases h with h | h
  · simp [expectedStatusesStep, Value.ToObject, Object.ClassName, Object.Get, h]
  · cases hm : props.lookup "min" <;>
      simp [expectedStatusesStep, Value.ToObject, Object.ClassName, Object.Get, h, hm]

theorem expectedStatusesStep_string (i : Nat) (t : String) (r : expectedStatuses) :
    expectedStatusesStep i (.string t) r = .error (.goError (errMissingMinMax (i + 1))) := by
  rfl

theorem expectedStatusesStep_bool (i : Nat) (b : Bool) (r : expectedStatuses) :
    expectedStatusesStep i (.bool b) r = .error (.goError (errMissingMinMax (i + 1))) := by
  rfl

theorem expectedStatusesStep_of_accepted (i : Nat) (v : Value) (r : expectedStatuses)
    (h : v.accepted = true) : ∃ r', expectedStatusesStep i v r = .ok r' := by
  cases v with
  | object props =>
    simp only [Value.accepted] at h
    split at h
    · rename_i min max hmin hmax
      simp only [Bool.and_eq_true] at h
      exact ⟨_, expectedStatusesStep_object_numbers i props r min max hmin hmax h.1 h.2⟩
    · exact absurd h (by simp)
  | undefined => simp [Value.accepted, Value.isNumber] at h
  | null => simp [Value.accepted, Value.isNumber] at h
  | bool b => simp [Value.accepted, Value.isNumber] at h
  | string t => simp [Value.accepted, Value.isNumber] at h
  | int n => exact ⟨_, expectedStatusesStep_of_isNumber i _ r rfl⟩
  | float m e => exact ⟨_, expectedStatusesStep_of_isNumber i _ r rfl⟩
  | nan => exact ⟨_, expectedStatusesStep_of_isNumber i _ r rfl⟩
  | inf n => exact ⟨_, expectedStatusesStep_of_isNumber i _ r rfl⟩

theorem expectedStatusesStep_error_ne_noArguments (i : Nat) (v : Value) (r : expectedStatuses)
    (ex : Exception) (h : expectedStatusesStep i v r = .error ex) :
    ex ≠ .goError "no arguments" := by
  intro hex
  subst hex
  have key : ∀ n, Exception.goError (errMissingMinMax n) ≠ .goError "no arguments" := by
    intro n hn
    exact errNilObject_ne_noArguments n (Exception.goError.inj hn)
  have key2 : ∀ n, Exception.goError (errMinMaxNotNumber n) ≠ .goError "no arguments" := by
    intro n hn
    exact errMinMaxNotNumber_ne_noArguments n (Exception.goError.inj hn)
  cases v with
  | object props =>
    cases hmin : props.lookup "min" with
    | none =>
      rw [expectedStatusesStep_object_missing i props r (Or.inl hmin)] at h
      exact key _ (Except.error.inj h)
    | some min =>
      cases hmax : props.lookup "max" with
      | none =>
        rw [expectedStatusesStep_object_missing i props r (Or.inr hmax)] at h
        exact key _ (Except.error.inj h)
      | some max =>
        simp only [expectedStatusesStep, Value.ToObject, Object.ClassName, Object.Get,
          hmin, hmax] at h
        have hc : ∀ a : Value, checkNumber a ≠ .error (.goError "no arguments") := by
          intro a
          cases a <;> simp [checkNumber, Value.ToObject]
        revert h
        rw [if_neg (by decide)]
        cases h1 : checkNumber min with
        | error e1 =>
          intro h
          exact hc min (by rw [h1]; simpa using h)
        | ok b1 =>
          cases b1 with
          | false => intro h; exact key2 _ (Except.error.inj h)
          | true =>
            cases h2 : checkNumber max with
            | error e2 =>
              intro h
              exact hc max (by rw [h2]; simpa using h)
            | ok b2 =>
              cases b2 with
              | false => intro h; exact key2 _ (Except.error.inj h)
              | true => intro h; cases h
  | undefined => cases h
  | null => cases h
  | bool b => exact key _ (Except.error.inj h)
  | string t => exact key _ (Except.error.inj h)
  | int n => cases h
  | float m e => cases h
  | nan => cases h
  | inf n => cases h

/-! ## Lemmas on the loop -/

theorem expectedStatusesLoop_append (i : Nat) (pre rest : List Value) (r : expectedStatuses) :
    expectedStatusesLoop i (pre ++ rest) r =
      match expectedStatusesLoop i pre r with
      | .error ex => .error ex
      | .ok r' => expectedStatusesLoop (i + pre.length) rest r' := by
  induction pre generalizing i r with
  | nil => simp [expectedStatusesLoop]
  | cons v pre ih =>
    simp only [List.cons_append, expectedStatusesLoop, List.length_cons]
    cases expectedStatusesStep i v r with
    | error ex => rfl
    | ok r' =>
      have hi : i + (pre.length + 1) = i + 1 + pre.length := by omega
      rw [hi]
      exact ih (i + 1) r'

theorem expectedStatusesLoop_of_accepted (i : Nat) (pre : List Value) (r : expectedStatuses)
    (h : ∀ v ∈ pre, v.accepted = true) : ∃ r', expectedStatusesLoop i pre r = .ok r' := by
  induction pre generalizing i r with
  | nil => exact ⟨r, rfl⟩
  | cons v pre ih =>
    obtain ⟨r1, h1⟩ := expectedStatusesStep_of_accepted i v r (h v (List.mem_cons_self v pre))
    obtain ⟨r2, h2⟩ := ih (i + 1) r1 (fun w hw => h w (List.mem_cons_of_mem v hw))
    exact ⟨r2, by simp only [expectedStatusesLoop, h1, h2]⟩

theorem expectedStatusesLoop_error_ne_noArguments (i : Nat) (args : List Value)
    (r : expectedStatuses) (ex : Exception) (h : expectedStatusesLoop i args r = .error ex) :
    ex ≠ .goError "no arguments" := by
  induction args generalizing i r with
  | nil => cases h
  | cons v rest ih =>
    simp only [expectedStatusesLoop] at h
    cases hs : expectedStatusesStep i v r with
    | error e1 =>
      rw [hs] at h
      have he : e1 = ex := Except.error.inj h
      exact he ▸ expectedStatusesStep_error_ne_noArguments i v r e1 hs
    | ok r1 =>
      rw [hs] at h
      exact ih (i + 1) r1 h

/-- After a prefix the loop body lets through, an argument on which the loop body panics,
whatever has been accumulated, makes the whole call panic in the same way; its index is the
length of the prefix, and the arguments after it are never looked at. -/
theorem ExpectedStatuses_fails_at (pre rest : List Value) (v : Value) (ex : Exception)
    (hpre : ∀ w ∈ pre, w.accepted = true)
    (hv : ∀ r, expectedStatusesStep pre.length v r = .error ex) :
    ExpectedStatuses (pre ++ v :: rest) = .error ex := by
  obtain ⟨r1, h1⟩ := expectedStatusesLoop_of_accepted 0 pre { minmax := [], exact := [] } hpre
  have hlen : ¬ (pre ++ v :: rest).length = 0 := by simp
  simp only [ExpectedStatuses, hlen, if_false, expectedStatusesLoop_append, h1,
    expectedStatusesLoop, Nat.zero_add, hv r1]

/-! ## Properties of `match` -/

/-- C1: for every exact list `E`, every range list `R` and every status `s`, `match` returns
`true` exactly when `s` is an element of `E` or some range `(min, max)` of `R` has
`min ≤ s ≤ max`; with no range, `match s` is the membership test `s ∈ E`; and `match` always
returns one of the two booleans. -/
theorem match_iff_exact_or_range (E : List Int) (R : List (Int × Int)) (s : Int) :
    (expectedStatuses.«match» ⟨R, E⟩ s = true ↔ (s ∈ E ∨ ∃ r ∈ R, r.1 ≤ s ∧ s ≤ r.2))
    ∧ expectedStatuses.«match» ⟨[], E⟩ s = decide (s ∈ E)
    ∧ (expectedStatuses.«match» ⟨R, E⟩ s = true ∨ expectedStatuses.«match» ⟨R, E⟩ s = false) := by
  refine ⟨match_eq_true ⟨R, E⟩ s, ?_, ?_⟩
  · rw [Bool.eq_iff_iff, match_eq_true]
    simp
  · cases expectedStatuses.«match» ⟨R, E⟩ s <;> simp

/-- C2, as stated, fails: with the single range `[2,1]` the boundary values 2 and 1 do not
match. -/
theorem single_range_boundary_counterexample :
    expectedStatuses.«match» ⟨[(2, 1)], []⟩ 2 = false
    ∧ expectedStatuses.«match» ⟨[(2, 1)], []⟩ 1 = false := by
  decide

/-- C2, amended: for all integers `a`, `b`, `s` and the matcher with no exact value and the
single range `[a,b]`, `match s` is the test `a ≤ s ≤ b`; the boundary values `a` and `b` match
exactly when `a ≤ b`; `a-1` and `b+1` do not match. -/
theorem single_range_match (a b s : Int) :
    expectedStatuses.«match» ⟨[(a, b)], []⟩ s = decide (a ≤ s ∧ s ≤ b)
    ∧ (expectedStatuses.«match» ⟨[(a, b)], []⟩ a = true ↔ a ≤ b)
    ∧ (expectedStatuses.«match» ⟨[(a, b)], []⟩ b = true ↔ a ≤ b)
    ∧ expectedStatuses.«match» ⟨[(a, b)], []⟩ (a - 1) = false
    ∧ expectedStatuses.«match» ⟨[(a, b)], []⟩ (b + 1) = false := by
  have key : ∀ t : Int, expectedStatuses.«match» ⟨[(a, b)], []⟩ t = decide (a ≤ t ∧ t ≤ b) := by
    intro t
    rw [Bool.eq_iff_iff, match_eq_true]
    simp
  refine ⟨key s, ?_, ?_, ?_, ?_⟩
  · rw [key]; simp
  · rw [key]; simp
  · rw [key]; simp
  · rw [key]; simp

/-- C3: a range `(a, b)` with `a > b` matches nothing. Putting it anywhere into the ranges of a
matcher (`R1` before it, `R2` after it, exact list `E`) leaves `match` unchanged for every
status; the matcher made of that range alone returns `false` for every status; and the
constructor accepts `{min: a, max: b}`, returning that matcher rather than an error. -/
theorem inverted_range_matches_nothing (E : List Int) (R1 R2 : List (Int × Int)) (a b s : Int)
    (h : b < a) :
    expectedStatuses.«match» ⟨R1 ++ (a, b) :: R2, E⟩ s = expectedStatuses.«match» ⟨R1 ++ R2, E⟩ s
    ∧ expectedStatuses.«match» ⟨[(a, b)], []⟩ s = false
    ∧ ExpectedStatuses [.object [("min", .int a), ("max", .int b)]] = .ok ⟨[(a, b)], []⟩ := by
  refine ⟨?_, ?_, rfl⟩
  · rw [Bool.eq_iff_iff, match_eq_true, match_eq_true]
    simp only [List.mem_append, List.mem_cons]
    constructor
    · rintro (hE | ⟨r, hr | hr | hr, hs⟩)
      · exact Or.inl hE
      · exact Or.inr ⟨r, Or.inl hr, hs⟩
      · subst hr
        simp only at hs
        omega
      · exact Or.inr ⟨r, Or.inr hr, hs⟩
    · rintro (hE | ⟨r, hr | hr, hs⟩)
      · exact Or.inl hE
      · exact Or.inr ⟨r, Or.inl hr, hs⟩
      · exact Or.inr ⟨r, Or.inr (Or.inr hr), hs⟩
  · rw [← Bool.not_eq_true, match_eq_true]
    simp only [List.not_mem_nil, List.mem_singleton, false_or, not_exists, not_and]
    intro r hr
    subst hr
    simp only
    omega

theorem inverted_range_matches_nothing_witness :
    (300 : Int) < 400
    ∧ expectedStatuses.«match» ⟨[(200, 299)] ++ (400, 300) :: [(500, 599)], [404]⟩ 350
        = expectedStatuses.«match» ⟨[(200, 299)] ++ [(500, 599)], [404]⟩ 350
    ∧ expectedStatuses.«match» ⟨[(400, 300)], []⟩ 350 = false
    ∧ ExpectedStatuses [.object [("min", .int 400), ("max", .int 300)]]
        = .ok ⟨[(400, 300)], []⟩ :=
  ⟨by decide, inverted_range_matches_nothing [404] [(200, 299)] [(500, 599)] 400 300 350
    (by decide)⟩

/-- C4: the engine default matcher has an empty exact list and the single range `[200,399]`;
`DefaultHTTPResponseCallback()` returns `true` on a status `s` exactly when `200 ≤ s ≤ 399`, so
302 and 200 pass and 199 and 400 do not. -/
theorem default_callback_range (s : Int) :
    defaultExpectedStatuses.exact = []
    ∧ defaultExpectedStatuses.minmax = [(200, 399)]
    ∧ (DefaultHTTPResponseCallback s = true ↔ (200 ≤ s ∧ s ≤ 399))
    ∧ DefaultHTTPResponseCallback 302 = true
    ∧ DefaultHTTPResponseCallback 200 = true
    ∧ DefaultHTTPResponseCallback 199 = false
    ∧ DefaultHTTPResponseCallback 400 = false := by
  refine ⟨rfl, rfl, ?_, by decide, by decide, by decide, by decide⟩
  unfold DefaultHTTPResponseCallback
  rw [match_eq_true]
  simp [defaultExpectedStatuses]

/-! ## Properties of `ExpectedStatuses` -/

/-- C5: called with no argument, `ExpectedStatuses` returns no matcher and throws the error
"no arguments"; and the empty argument list is the only one for which it throws that error. -/
theorem no_arguments_error (args : List Value) :
    ExpectedStatuses [] = .error (.goError "no arguments")
    ∧ (ExpectedStatuses args = .error (.goError "no arguments") ↔ args = []) := by
  refine ⟨rfl, ?_, ?_⟩
  · intro h
    cases args with
    | nil => rfl
    | cons v rest =>
      have hlen : ¬ (v :: rest).length = 0 := by simp
      simp only [ExpectedStatuses, hlen, if_false] at h
      exact absurd rfl (expectedStatusesLoop_error_ne_noArguments 0 (v :: rest) _ _ h)
  · intro h
    subst h
    rfl

/-- After a prefix the loop body lets through, a string or a boolean makes the call throw the
error of line 86 with the 1-based position of that argument: converted to an object it is not of
class `Number` and has neither `min` nor `max`. -/
theorem ExpectedStatuses_string_or_bool (pre rest : List Value) (v : Value)
    (hpre : ∀ w ∈ pre, w.accepted = true)
    (hv : (∃ t, v = .string t) ∨ (∃ b, v = .bool b)) :
    ExpectedStatuses (pre ++ v :: rest) = .error (.goError (errMissingMinMax (pre.length + 1))) := by
  apply ExpectedStatuses_fails_at pre rest v _ hpre
  intro r
  rcases hv with ⟨t, rfl⟩ | ⟨b, rfl⟩
  · exact expectedStatusesStep_string pre.length t r
  · exact expectedStatusesStep_bool pre.length b r

/-- After a prefix the loop body lets through, `undefined` or `null` makes the call panic with
goja's `TypeError`: `ToObject` panics before the `nil` test of line 74 is reached. -/
theorem ExpectedStatuses_nullish (pre rest : List Value) (v : Value)
    (hpre : ∀ w ∈ pre, w.accepted = true) (hv : v.isNullish = true) :
    ExpectedStatuses (pre ++ v :: rest)
      = .error (.typeError "Cannot convert undefined or null to object") := by
  apply ExpectedStatuses_fails_at pre rest v _ hpre
  intro r
  cases v <;> simp [Value.isNullish] at hv <;> rfl

theorem checkNumber_of_not_number (a : Value) (h1 : a.isNumber = false)
    (h2 : a.isNullish = false) : checkNumber a = .ok false := by
  cases a <;> simp [Value.isNumber, Value.isNullish] at h1 h2 <;> rfl

/-- After a prefix the loop body lets through, an object holding both `min` and `max` makes the
call throw the error of line 89 with its 1-based position when the first of `min`, `max` that is
not a number is neither `undefined` nor `null`. -/
theorem ExpectedStatuses_min_max_not_number (pre rest : List Value)
    (props : List (String × Value)) (min max : Value)
    (hpre : ∀ w ∈ pre, w.accepted = true)
    (hmin : props.lookup "min" = some min) (hmax : props.lookup "max" = some max)
    (h : (min.isNumber = false ∧ min.isNullish = false)
      ∨ (min.isNumber = true ∧ max.isNumber = false ∧ max.isNullish = false)) :
    ExpectedStatuses (pre ++ .object props :: rest)
      = .error (.goError (errMinMaxNotNumber (pre.length + 1))) := by
  apply ExpectedStatuses_fails_at pre rest _ _ hpre
  intro r
  rcases h with ⟨h1, h2⟩ | ⟨h1, h2, h3⟩
  · simp [expectedStatusesStep, Value.ToObject, Object.ClassName, Object.Get, hmin, hmax,
      checkNumber_of_not_number min h1 h2]
  · simp [expectedStatusesStep, Value.ToObject, Object.ClassName, Object.Get, hmin, hmax,
      checkNumber_of_isNumber min h1, checkNumber_of_not_number max h2 h3]

/-- C6: on `(200, "300", {min:200, max:300})` the call throws, for argument 2, a message that
reads "nor a an object": the format string of lines 76 and 86 has a stray "a", so the message is
not the one the claim and the test "string status code" give, which reads "nor an object". -/
theorem string_argument_message_has_stray_word :
    ExpectedStatuses
        [.int 200, .string "300", .object [("min", .int 200), ("max", .int 300)]]
      = .error (.goError
          "argument number 2 to expectedStatuses was neither an integer nor a an object like \x7bmin:100, max:329\x7d")
    ∧ ExpectedStatuses
        [.int 200, .string "300", .object [("min", .int 200), ("max", .int 300)]]
      ≠ .error (.goError
          "argument number 2 to expectedStatuses was neither an integer nor an object like \x7bmin:100, max:329\x7d") := by
  refine ⟨rfl, ?_⟩
  intro h
  have h1 := Exception.goError.inj (Except.error.inj h)
  exact absurd h1 (by decide)

/-- C7: on `(200, 300.5, {min:200, max:300})` the call does not fail: 300.5 is of class `Number`,
so it is truncated to 300 and stored as an exact value, and a matcher is returned. -/
theorem fractional_argument_is_accepted :
    ExpectedStatuses
        [.int 200, .float 601 (-1), .object [("min", .int 200), ("max", .int 300)]]
      = .ok ⟨[(200, 300)], [200, 300]⟩ := by
  rfl

/-- C8: on `(200, 300, {min:200, max:null})`, where `max` is present and not a number, the call
does not throw "both min and max need to be number for argument number 3": `checkNumber` calls
`ToObject` on `null`, which panics with a `TypeError`, so its test `o != nil` is never reached.
On the input of the test "string max status code", `(200, 300, {min:200, max:"300"})`, the
message is the expected one. -/
theorem null_max_raises_type_error :
    ExpectedStatuses
        [.int 200, .int 300, .object [("min", .int 200), ("max", .null)]]
      = .error (.typeError "Cannot convert undefined or null to object")
    ∧ ExpectedStatuses
        [.int 200, .int 300, .object [("min", .int 200), ("max", .string "300")]]
      = .error (.goError "both min and max need to be number for argument number 3") := by
  exact ⟨rfl, rfl⟩

/-- C9: on `(200, 300, {min:200, max:300.5})` the call does not fail: `checkNumber` only asks
for the class `Number`, so `max` is truncated to 300 and the range `[200,300]` is stored. -/
theorem fractional_max_is_accepted :
    ExpectedStatuses
        [.int 200, .int 300, .object [("min", .int 200), ("max", .float 601 (-1))]]
      = .ok ⟨[(200, 300)], [200, 300]⟩ := by
  rfl

/-- After a prefix the loop body lets through, an object with no `min` or no `max` makes the call
throw the error of line 86, whose text is that of line 76, with the 1-based position of the
object; the call throws that same error when a string or a boolean stands at that position,
whatever follows; and it is not the error "both min and max need to be number", for any
position. (`undefined` and `null` are not covered: see `ExpectedStatuses_nullish`.) -/
theorem ExpectedStatuses_missing_min_or_max (pre rest : List Value) (props : List (String × Value))
    (hpre : ∀ w ∈ pre, w.accepted = true)
    (hmiss : props.lookup "min" = none ∨ props.lookup "max" = none) :
    ExpectedStatuses (pre ++ .object props :: rest)
      = .error (.goError (errNilObject (pre.length + 1)))
    ∧ (∀ (t : String) (rest' : List Value),
        ExpectedStatuses (pre ++ .string t :: rest')
          = ExpectedStatuses (pre ++ .object props :: rest))
    ∧ (∀ (b : Bool) (rest' : List Value),
        ExpectedStatuses (pre ++ .bool b :: rest')
          = ExpectedStatuses (pre ++ .object props :: rest))
    ∧ (∀ k : Nat, ExpectedStatuses (pre ++ .object props :: rest)
        ≠ .error (.goError (errMinMaxNotNumber k))) := by
  have hobj : ExpectedStatuses (pre ++ .object props :: rest)
      = .error (.goError (errNilObject (pre.length + 1))) := by
    apply ExpectedStatuses_fails_at pre rest _ _ hpre
    intro r
    rw [← errMissingMinMax_eq]
    exact expectedStatusesStep_object_missing pre.length props r hmiss
  refine ⟨hobj, ?_, ?_, ?_⟩
  · intro t rest'
    rw [hobj, ← errMissingMinMax_eq]
    exact ExpectedStatuses_string_or_bool pre rest' _ hpre (Or.inl ⟨t, rfl⟩)
  · intro b rest'
    rw [hobj, ← errMissingMinMax_eq]
    exact ExpectedStatuses_string_or_bool pre rest' _ hpre (Or.inr ⟨b, rfl⟩)
  · intro k hk
    rw [hobj] at hk
    exact errNilObject_ne_errMinMaxNotNumber _ k (Exception.goError.inj (Except.error.inj hk))

/-- C10: on `(200, {min: 200})`, whose second argument is an object without `max`, the call
throws the error of line 86 for argument 2; on `(200, null)`, whose second argument is neither a
number nor an object, it panics with goja's `TypeError` instead, because `ToObject` panics before
the `nil` test of line 74 can throw the error of line 76. So the object without `max` does not
get the error that this argument gets at the same position. -/
theorem missing_max_differs_from_null_argument :
    ExpectedStatuses [.int 200, .object [("min", .int 200)]]
      = .error (.goError
          "argument number 2 to expectedStatuses was neither an integer nor a an object like \x7bmin:100, max:329\x7d")
    ∧ ExpectedStatuses [.int 200, .null]
      = .error (.typeError "Cannot convert undefined or null to object")
    ∧ ExpectedStatuses [.int 200, .object [("min", .int 200)]]
      ≠ ExpectedStatuses [.int 200, .null] := by
  refine ⟨rfl, rfl, ?_⟩
  intro h
  have h1 : Exception.goError (errMissingMinMax 2)
      = Exception.typeError "Cannot convert undefined or null to object" :=
    Except.error.inj h
  cases h1

/-! ## Extra fields -/

theorem lookup_filter_isMinMaxField (k : String) (hk : k = "min" ∨ k = "max")
    (props : List (String × Value)) :
    (props.filter isMinMaxField).lookup k = props.lookup k := by
  induction props with
  | nil => rfl
  | cons e rest ih =>
    obtain ⟨key, val⟩ := e
    by_cases hf : isMinMaxField (key, val) = true
    · rw [List.filter_cons_of_pos hf]
      simp only [List.lookup_cons, ih]
    · rw [List.filter_cons_of_neg hf, ih]
      have hne : (k == key) = false := by
        simp only [isMinMaxField, Bool.or_eq_true, beq_iff_eq, not_or] at hf
        rcases hk with hk | hk
        · subst hk
          exact beq_false_of_ne (fun h => hf.1 h.symm)
        · subst hk
          exact beq_false_of_ne (fun h => hf.2 h.symm)
      simp only [List.lookup_cons, hne]

theorem expectedStatusesStep_withoutExtraFields (i : Nat) (v : Value) (r : expectedStatuses) :
    expectedStatusesStep i v.withoutExtraFields r = expectedStatusesStep i v r := by
  cases v with
  | object props =>
    simp only [Value.withoutExtraFields, expectedStatusesStep, Value.ToObject, Object.ClassName,
      Object.Get, lookup_filter_isMinMaxField "min" (Or.inl rfl),
      lookup_filter_isMinMaxField "max" (Or.inr rfl)]
    rw [if_neg (by decide), if_neg (by decide)]
  | _ => rfl

theorem expectedStatusesLoop_withoutExtraFields (i : Nat) (args : List Value)
    (r : expectedStatuses) :
    expectedStatusesLoop i (args.map Value.withoutExtraFields) r
      = expectedStatusesLoop i args r := by
  induction args generalizing i r with
  | nil => rfl
  | cons v rest ih =>
    simp only [List.map_cons, expectedStatusesLoop, expectedStatusesStep_withoutExtraFields]
    cases expectedStatusesStep i v r with
    | error ex => rfl
    | ok r' => exact ih (i + 1) r'

theorem ExpectedStatuses_withoutExtraFields (args : List Value) :
    ExpectedStatuses (args.map Value.withoutExtraFields) = ExpectedStatuses args := by
  simp only [ExpectedStatuses, List.length_map, expectedStatusesLoop_withoutExtraFields]

/-- Inserting a field whose name is neither `min` nor `max` anywhere into an object does not
change its stripped form. -/
theorem withoutExtraFields_insert (p1 p2 : List (String × Value)) (k : String) (x : Value)
    (h1 : k ≠ "min") (h2 : k ≠ "max") :
    (Value.object (p1 ++ (k, x) :: p2)).withoutExtraFields
      = (Value.object (p1 ++ p2)).withoutExtraFields := by
  have hf : ¬ isMinMaxField (k, x) = true := by
    simp [isMinMaxField, h1, h2]
  simp only [Value.withoutExtraFields, List.filter_append, List.filter_cons_of_neg hf]

/-- C11: extra fields on object arguments are ignored. Two argument lists that, argument by
argument, differ only in fields other than `min` and `max` of their objects (so in particular
when the second adds such fields to range objects of the first) give the same outcome of
`ExpectedStatuses`: the same matcher, exact list and ranges list alike, or the same error. -/
theorem extra_fields_ignored (args args' : List Value)
    (h : args'.map Value.withoutExtraFields = args.map Value.withoutExtraFields) :
    ExpectedStatuses args' = ExpectedStatuses args := by
  rw [← ExpectedStatuses_withoutExtraFields args', h, ExpectedStatuses_withoutExtraFields]

theorem extra_fields_ignored_witness :
    ([Value.int 200, .int 300,
        .object [("min", .int 200), ("max", .int 300), ("other", .string "attribute")]].map
        Value.withoutExtraFields
      = [Value.int 200, .int 300, .object [("min", .int 200), ("max", .int 300)]].map
        Value.withoutExtraFields)
    ∧ ExpectedStatuses [.int 200, .int 300,
        .object [("min", .int 200), ("max", .int 300), ("other", .string "attribute")]]
      = ExpectedStatuses [.int 200, .int 300, .object [("min", .int 200), ("max", .int 300)]]
    ∧ ExpectedStatuses [.int 200, .int 300, .object [("min", .int 200), ("max", .int 300)]]
      = .ok ⟨[(200, 300)], [200, 300]⟩ :=
  ⟨rfl, extra_fields_ignored _ _ rfl, rfl⟩

/-! ## Valid arguments -/

theorem isValidArg_object (props : List (String × Value))
    (h : (Value.object props).isValidArg = true) :
    ∃ a b, props.lookup "min" = some (.int a) ∧ props.lookup "max" = some (.int b) := by
  simp only [Value.isValidArg] at h
  split at h
  · rename_i a b hmin hmax
    exact ⟨a, b, hmin, hmax⟩
  · exact absurd h (by simp)

theorem expectedStatusesLoop_of_valid (i : Nat) (args : List Value) (r : expectedStatuses)
    (h : ∀ v ∈ args, v.isValidArg = true) :
    expectedStatusesLoop i args r
      = .ok ⟨r.minmax ++ rangeArgs args, r.exact ++ integerArgs args⟩ := by
  induction args generalizing i r with
  | nil => simp [expectedStatusesLoop, rangeArgs, integerArgs]
  | cons v rest ih =>
    have hv := h v (List.mem_cons_self v rest)
    have hrest : ∀ w ∈ rest, w.isValidArg = true := fun w hw => h w (List.mem_cons_of_mem v hw)
    cases v with
    | int a =>
      have hs : expectedStatusesStep i (.int a) r = .ok { r with exact := r.exact ++ [a] } := rfl
      simp only [expectedStatusesLoop, hs, ih (i + 1) _ hrest, rangeArgs, integerArgs,
        List.append_assoc, List.singleton_append]
    | object props =>
      obtain ⟨a, b, hmin, hmax⟩ := isValidArg_object props hv
      have hs := expectedStatusesStep_object_numbers i props r (.int a) (.int b) hmin hmax rfl rfl
      simp only [expectedStatusesLoop, hs, ih (i + 1) _ hrest, rangeArgs, integerArgs, hmin, hmax,
        List.append_assoc, List.singleton_append, Value.ToInteger]
    | undefined => simp [Value.isValidArg] at hv
    | null => simp [Value.isValidArg] at hv
    | bool b => simp [Value.isValidArg] at hv
    | string t => simp [Value.isValidArg] at hv
    | float m e => simp [Value.isValidArg] at hv
    | nan => simp [Value.isValidArg] at hv
    | inf n => simp [Value.isValidArg] at hv

theorem ExpectedStatuses_of_valid (args : List Value) (hne : args ≠ [])
    (h : ∀ v ∈ args, v.isValidArg = true) :
    ExpectedStatuses args = .ok ⟨rangeArgs args, integerArgs args⟩ := by
  have hlen : ¬ args.length = 0 := by
    intro h0
    exact hne (List.length_eq_zero.mp h0)
  simp only [ExpectedStatuses, hlen, if_false, expectedStatusesLoop_of_valid 0 args _ h,
    List.nil_append]

theorem length_integerArgs_add_rangeArgs (args : List Value)
    (h : ∀ v ∈ args, v.isValidArg = true) :
    (integerArgs args).length + (rangeArgs args).length = args.length := by
  induction args with
  | nil => rfl
  | cons v rest ih =>
    have hv := h v (List.mem_cons_self v rest)
    have hrest := ih (fun w hw => h w (List.mem_cons_of_mem v hw))
    cases v with
    | int a =>
      simp only [integerArgs, rangeArgs, List.length_cons]
      omega
    | object props =>
      obtain ⟨a, b, hmin, hmax⟩ := isValidArg_object props hv
      simp only [integerArgs, rangeArgs, hmin, hmax, List.length_cons]
      omega
    | undefined => simp [Value.isValidArg] at hv
    | null => simp [Value.isValidArg] at hv
    | bool b => simp [Value.isValidArg] at hv
    | string t => simp [Value.isValidArg] at hv
    | float m e => simp [Value.isValidArg] at hv
    | nan => simp [Value.isValidArg] at hv
    | inf n => simp [Value.isValidArg] at hv

/-- C12: on a non-empty argument list in which every argument is an integer or an object whose
`min` and `max` are integers, `ExpectedStatuses` succeeds; the exact list of the matcher is the
list of the integer arguments in argument order, duplicates kept; its ranges list is the list of
the pairs `(min, max)` of the object arguments in argument order; so the two lengths add up to
the number of arguments. -/
theorem valid_arguments_accumulate (args : List Value) (hne : args ≠ [])
    (h : ∀ v ∈ args, v.isValidArg = true) :
    ExpectedStatuses args = .ok ⟨rangeArgs args, integerArgs args⟩
    ∧ (integerArgs args).length + (rangeArgs args).length = args.length :=
  ⟨ExpectedStatuses_of_valid args hne h, length_integerArgs_add_rangeArgs args h⟩

theorem valid_arguments_accumulate_witness :
    [Value.int 200, .object [("min", .int 400), ("max", .int 499)], .int 300, .int 200] ≠ []
    ∧ (∀ v ∈ [Value.int 200, .object [("min", .int 400), ("max", .int 499)], .int 300, .int 200],
        v.isValidArg = true)
    ∧ ExpectedStatuses
        [.int 200, .object [("min", .int 400), ("max", .int 499)], .int 300, .int 200]
      = .ok ⟨[(400, 499)], [200, 300, 200]⟩ :=
  ⟨by simp, by decide,
    (valid_arguments_accumulate
      [.int 200, .object [("min", .int 400), ("max", .int 499)], .int 300, .int 200]
      (by simp) (by decide)).1⟩

/-! ## Fail-fast -/

theorem isNumber_of_checkNumber (a : Value) (h : checkNumber a = .ok true) :
    a.isNumber = true := by
  cases a <;> first | rfl | (exfalso; revert h; simp [checkNumber, Value.ToObject, Object.ClassName])

/-- An argument the loop body does not let through makes it panic, with a panic that depends on
the argument and on its index only, not on what has been accumulated. -/
theorem expectedStatusesStep_of_not_accepted (i : Nat) (v : Value) (h : v.accepted = false) :
    ∃ ex, ∀ r, expectedStatusesStep i v r = .error ex := by
  cases v with
  | object props =>
    cases hmin : props.lookup "min" with
    | none => exact ⟨_, fun r => expectedStatusesStep_object_missing i props r (Or.inl hmin)⟩
    | some mn =>
      cases hmax : props.lookup "max" with
      | none => exact ⟨_, fun r => expectedStatusesStep_object_missing i props r (Or.inr hmax)⟩
      | some mx =>
        simp only [Value.accepted, hmin, hmax] at h
        cases h1 : checkNumber mn with
        | error e1 =>
          exact ⟨e1, fun r => by
            simp [expectedStatusesStep, Value.ToObject, Object.ClassName, Object.Get, hmin, hmax,
              h1]⟩
        | ok b1 =>
          cases b1 with
          | false =>
            exact ⟨.goError (errMinMaxNotNumber (i + 1)), fun r => by
              simp [expectedStatusesStep, Value.ToObject, Object.ClassName, Object.Get, hmin,
                hmax, h1]⟩
          | true =>
            cases h2 : checkNumber mx with
            | error e2 =>
              exact ⟨e2, fun r => by
                simp [expectedStatusesStep, Value.ToObject, Object.ClassName, Object.Get, hmin,
                  hmax, h1, h2]⟩
            | ok b2 =>
              cases b2 with
              | false =>
                exact ⟨.goError (errMinMaxNotNumber (i + 1)), fun r => by
                  simp [expectedStatusesStep, Value.ToObject, Object.ClassName, Object.Get, hmin,
                    hmax, h1, h2]⟩
              | true =>
                have n1 := isNumber_of_checkNumber mn h1
                have n2 := isNumber_of_checkNumber mx h2
                simp [n1, n2] at h
  | undefined => exact ⟨_, fun _ => rfl⟩
  | null => exact ⟨_, fun _ => rfl⟩
  | bool b => exact ⟨_, fun _ => rfl⟩
  | string t => exact ⟨_, fun _ => rfl⟩
  | int n => simp [Value.accepted, Value.isNumber] at h
  | float m e => simp [Value.accepted, Value.isNumber] at h
  | nan => simp [Value.accepted, Value.isNumber] at h
  | inf n => simp [Value.accepted, Value.isNumber] at h

/-- The loop stops at the first argument its body does not let through: the call panics with
the panic of that argument at that index, whatever the arguments after it. -/
theorem ExpectedStatuses_first_not_accepted (pre : List Value) (v : Value)
    (hpre : ∀ w ∈ pre, w.accepted = true) (hv : v.accepted = false) :
    ∃ ex, (∀ r, expectedStatusesStep pre.length v r = .error ex)
      ∧ ∀ rest, ExpectedStatuses (pre ++ v :: rest) = .error ex := by
  obtain ⟨ex, hex⟩ := expectedStatusesStep_of_not_accepted pre.length v hv
  exact ⟨ex, hex, fun rest => ExpectedStatuses_fails_at pre rest v ex hpre hex⟩

/-- C13: on `(200, 300.5, "300")` the first invalid argument is the second one, but the call
reports the third: 300.5 is let through (and stored as 300), and the loop goes on to the string.
On `(200, 300.5)`, whose only invalid argument is 300.5, the call does not fail and returns a
matcher. -/
theorem first_invalid_argument_not_reported :
    ExpectedStatuses [.int 200, .float 601 (-1), .string "300"]
      = .error (.goError (errMissingMinMax 3))
    ∧ errMissingMinMax 3
      = "argument number 3 to expectedStatuses was neither an integer nor a an object like \x7bmin:100, max:329\x7d"
    ∧ ExpectedStatuses [.int 200, .float 601 (-1)] = .ok ⟨[], [200, 300]⟩ := by
  exact ⟨rfl, rfl, rfl⟩

/-! ## Construction followed by `match` -/

/-- On valid arguments the matcher built matches a status exactly when the status is one of the
integer arguments or lies within the bounds of one of the range arguments. -/
theorem match_of_valid_arguments (args : List Value) (hne : args ≠ [])
    (h : ∀ v ∈ args, v.isValidArg = true) :
    ∃ m, ExpectedStatuses args = .ok m
      ∧ ∀ s, (m.«match» s = true
        ↔ (s ∈ integerArgs args ∨ ∃ r ∈ rangeArgs args, r.1 ≤ s ∧ s ≤ r.2)) :=
  ⟨_, ExpectedStatuses_of_valid args hne h, fun s => match_eq_true _ s⟩

/-- C14: `ExpectedStatuses(300.5)` is accepted, and the matcher it returns matches 300, which is
not the argument: the fractional argument has been truncated. (The matcher built by
`ExpectedStatuses(200)` matches 200 and does not match 302, as the claim says.) -/
theorem truncated_argument_is_matched :
    ExpectedStatuses [.float 601 (-1)] = .ok ⟨[], [300]⟩
    ∧ expectedStatuses.«match» ⟨[], [300]⟩ 300 = true
    ∧ ExpectedStatuses [.int 200] = .ok ⟨[], [200]⟩
    ∧ expectedStatuses.«match» ⟨[], [200]⟩ 302 = false
    ∧ expectedStatuses.«match» ⟨[], [200]⟩ 200 = true := by
  exact ⟨rfl, by decide, rfl, by decide, by decide⟩

/-! ## Properties of `SetResponseCallback` -/

/-- C15: for every state and every matcher `es`, after `SetResponseCallback(es)` the field
`HTTPResponseCallback` holds a function, and that function returns `es.match(s)` on every status
`s`; after `SetResponseCallback(nil)` the field is `nil`, whatever the state held before, the
engine default included. -/
theorem setResponseCallback_installs {σ : Type} (state : State σ) (es : expectedStatuses) :
    (∃ f, (SetResponseCallback (some es) state).HTTPResponseCallback = some f
      ∧ ∀ s, f s = es.«match» s)
    ∧ (SetResponseCallback none state).HTTPResponseCallback = none
    ∧ (SetResponseCallback none
        { state with HTTPResponseCallback := some DefaultHTTPResponseCallback }).HTTPResponseCallback
      = none :=
  ⟨⟨es.«match», rfl, fun _ => rfl⟩, rfl, rfl⟩

/-- C20: `SetResponseCallback` writes the field `HTTPResponseCallback` only: for every state and
all arguments `a`, `b` (a matcher or `nil`), the other fields are unchanged by the call; calling
with `a` and then with `b` leaves the state that calling with `b` alone leaves; and calling twice
with the same argument leaves the state that calling once leaves. -/
theorem setResponseCallback_frame {σ : Type} (state : State σ) (a b : Option expectedStatuses) :
    (SetResponseCallback a state).other = state.other
    ∧ SetResponseCallback b (SetResponseCallback a state) = SetResponseCallback b state
    ∧ SetResponseCallback a (SetResponseCallback a state) = SetResponseCallback a state := by
  cases a <;> cases b <;> exact ⟨rfl, rfl, rfl⟩

/-! ## Order, multiplicity and the two representations -/

/-- C16: two matchers whose exact lists have the same elements and whose ranges lists have the
same elements, as is the case when the lists are permutations of each other or differ only by
repeated entries, return the same result of `match` on every status. -/
theorem match_ignores_order_and_multiplicity (E E' : List Int) (R R' : List (Int × Int))
    (s : Int)
    (hE : ∀ x ∈ E, x ∈ E') (hE' : ∀ x ∈ E', x ∈ E)
    (hR : ∀ r ∈ R, r ∈ R') (hR' : ∀ r ∈ R', r ∈ R) :
    expectedStatuses.«match» ⟨R, E⟩ s = expectedStatuses.«match» ⟨R', E'⟩ s := by
  rw [Bool.eq_iff_iff, match_eq_true, match_eq_true]
  constructor
  · rintro (h | ⟨r, hr, hs⟩)
    · exact Or.inl (hE s h)
    · exact Or.inr ⟨r, hR r hr, hs⟩
  · rintro (h | ⟨r, hr, hs⟩)
    · exact Or.inl (hE' s h)
    · exact Or.inr ⟨r, hR' r hr, hs⟩

theorem match_ignores_order_and_multiplicity_witness :
    (∀ x ∈ [200, 404, 200], x ∈ [404, 200])
    ∧ (∀ x ∈ [404, 200], x ∈ [200, 404, 200])
    ∧ (∀ r ∈ [((500 : Int), (599 : Int)), (300, 399)], r ∈ [(300, 399), (500, 599), (300, 399)])
    ∧ (∀ r ∈ [((300 : Int), (399 : Int)), (500, 599), (300, 399)], r ∈ [(500, 599), (300, 399)])
    ∧ expectedStatuses.«match» ⟨[(500, 599), (300, 399)], [200, 404, 200]⟩ 302
      = expectedStatuses.«match» ⟨[(300, 399), (500, 599), (300, 399)], [404, 200]⟩ 302 :=
  ⟨by decide, by decide, by decide, by decide,
    match_ignores_order_and_multiplicity [200, 404, 200] [404, 200]
      [(500, 599), (300, 399)] [(300, 399), (500, 599), (300, 399)] 302
      (by decide) (by decide) (by decide) (by decide)⟩

theorem mem_rangeValues (a b s : Int) : s ∈ rangeValues a b ↔ (a ≤ s ∧ s ≤ b) := by
  simp only [rangeValues, List.mem_map, List.mem_range]
  constructor
  · rintro ⟨k, hk, rfl⟩
    omega
  · rintro ⟨h1, h2⟩
    refine ⟨(s - a).toNat, ?_, ?_⟩
    · omega
    · omega

theorem mem_exactOnly (e : expectedStatuses) (s : Int) :
    s ∈ exactOnly e ↔ (s ∈ e.exact ∨ ∃ r ∈ e.minmax, r.1 ≤ s ∧ s ≤ r.2) := by
  simp only [exactOnly, List.mem_append, List.mem_flatMap, mem_rangeValues]

/-- C19: the exact list and the ranges list can stand for each other. For every matcher
`(E, R)` and every status `s`, `match` gives the same result as on the matcher with no exact
value and the ranges `R` followed by `(v, v)` for each `v` of `E`; and it gives the same result
as on the matcher with no range whose exact list is `E` followed by the values `a, a+1, ..., b`
of each range `(a, b)` of `R`. -/
theorem exact_and_ranges_interchangeable (E : List Int) (R : List (Int × Int)) (s : Int) :
    expectedStatuses.«match» ⟨R ++ E.map (fun v => (v, v)), []⟩ s
      = expectedStatuses.«match» ⟨R, E⟩ s
    ∧ expectedStatuses.«match» ⟨[], exactOnly ⟨R, E⟩⟩ s
      = expectedStatuses.«match» ⟨R, E⟩ s := by
  constructor
  · rw [Bool.eq_iff_iff, match_eq_true, match_eq_true]
    simp only [List.not_mem_nil, false_or, List.mem_append, List.mem_map]
    constructor
    · rintro ⟨r, hr | ⟨v, hv, rfl⟩, hs⟩
      · exact Or.inr ⟨r, hr, hs⟩
      · have hsv : s = v := by
          simp only at hs
          omega
        exact Or.inl (hsv ▸ hv)
    · rintro (h | ⟨r, hr, hs⟩)
      · exact ⟨(s, s), Or.inr ⟨s, h, rfl⟩, le_refl s, le_refl s⟩
      · exact ⟨r, Or.inl hr, hs⟩
  · rw [Bool.eq_iff_iff, match_eq_true, match_eq_true]
    simp only [List.not_mem_nil, false_and, exists_false, or_false, mem_exactOnly]

/-! ## Properties of resolution and tagging -/

/-- C17: the tagger is a function of the mode and the status. With a matcher, the tag `passed`
is "true" when the matcher matches the status and "false" otherwise, and the request-failed
metric is emitted with value 0 when passed and 1 when not. Unclassified, there is no tag
`passed` and no request-failed metric, while every other per-request metric is emitted. So the
request-failed metric is emitted exactly when the tag `passed` is present. -/
theorem outcomeTagger_classifies (m : expectedStatuses) (mode : Mode) (status : Int) :
    (OutcomeTagger (.classified m) status).passed
      = some (if m.«match» status then "true" else "false")
    ∧ (OutcomeTagger (.classified m) status).failed = some (if m.«match» status then 0 else 1)
    ∧ Metric.HTTPReqFailed ∈ (OutcomeTagger (.classified m) status).metrics
    ∧ (OutcomeTagger .unclassified status).passed = none
    ∧ (OutcomeTagger .unclassified status).failed = none
    ∧ Metric.HTTPReqFailed ∉ (OutcomeTagger .unclassified status).metrics
    ∧ (∀ x : Metric, x = .HTTPReqFailed ∨ x ∈ (OutcomeTagger mode status).metrics)
    ∧ ((OutcomeTagger mode status).failed.isSome = (OutcomeTagger mode status).passed.isSome)
    ∧ (Metric.HTTPReqFailed ∈ (OutcomeTagger mode status).metrics
        ↔ (OutcomeTagger mode status).passed.isSome = true) := by
  refine ⟨rfl, rfl, by simp [OutcomeTagger, allHTTPMetrics], rfl, rfl,
    by simp [OutcomeTagger, HTTPMetricsWithoutFailed], ?_, ?_, ?_⟩
  · intro x
    cases mode <;> cases x <;> simp [OutcomeTagger, allHTTPMetrics, HTTPMetricsWithoutFailed]
  · cases mode <;> rfl
  · cases mode <;> simp [OutcomeTagger, allHTTPMetrics, HTTPMetricsWithoutFailed]

/-- C18: precedence of the resolver. For every VU state, a per-request override that is a
matcher gives that matcher and one that is the disable value gives `Unclassified`, whatever the
VU state, and the VU state is left as it was for every override; with no per-request override
the VU state decides: disabled gives `Unclassified`, a matcher is used as it is, unset gives the
engine default matcher. -/
theorem callbackResolver_precedence (vu : VUCallbackState) (req : PerRequestOverride)
    (m : expectedStatuses) :
    (CallbackResolver vu (.matcher m)).1 = .classified m
    ∧ (CallbackResolver vu .disabled).1 = .unclassified
    ∧ (CallbackResolver vu req).2 = vu
    ∧ (CallbackResolver .disabled .absent).1 = .unclassified
    ∧ (CallbackResolver (.matcher m) .absent).1 = .classified m
    ∧ (CallbackResolver .unset .absent).1 = .classified defaultExpectedStatuses := by
  refine ⟨rfl, rfl, ?_, rfl, rfl, rfl⟩
  cases req with
  | absent => cases vu <;> rfl
  | disabled => rfl
  | matcher m' => rfl

end K6
